import Mathlib

/-!
Verification of the CNN stock-forecasting notebook (`Notebooks/CNN_Model.ipynb`).

The notebook is a linear pandas/numpy pipeline.  This file gives a shallow
embedding of the stages the claims touch: numeric cells are exact rationals
(`ℚ`), and the IEEE-754 special values that pandas float columns can hold
(NaN, ±inf) are made explicit through the `PVal` type, so that "undefined"
(NaN) propagation and division by zero behave exactly as in the source.
-/

/-- A pandas float cell: either a finite value (modelled exactly as a
rational), positive infinity, negative infinity, or NaN.  `pandas.dropna`
drops NaN cells but keeps infinities, which `isNA` reflects. -/
inductive PVal where
  | nan : PVal
  | pinf : PVal
  | minf : PVal
  | num : ℚ → PVal
deriving DecidableEq, Repr

namespace PVal

/-- IEEE-754 addition on `PVal` (restricted to exact rationals for the
finite case): NaN absorbs, opposite infinities give NaN. -/
def add : PVal → PVal → PVal
  | nan, _ => nan
  | _, nan => nan
  | pinf, minf => nan
  | minf, pinf => nan
  | pinf, _ => pinf
  | _, pinf => pinf
  | minf, _ => minf
  | _, minf => minf
  | num a, num b => num (a + b)

/-- IEEE-754 negation on `PVal`. -/
def neg : PVal → PVal
  | nan => nan
  | pinf => minf
  | minf => pinf
  | num a => num (-a)

/-- IEEE-754 subtraction on `PVal`. -/
def sub (a b : PVal) : PVal := a.add b.neg

/-- IEEE-754 division on `PVal`: NaN absorbs, inf/inf = NaN, x/0 is a
signed infinity for x ≠ 0 and NaN for 0/0 (ℚ has no signed zero; the
pipeline only divides by values arising as nonnegative smoothed averages,
where +0 is the zero that occurs). -/
def div : PVal → PVal → PVal
  | nan, _ => nan
  | _, nan => nan
  | pinf, pinf => nan
  | pinf, minf => nan
  | minf, pinf => nan
  | minf, minf => nan
  | pinf, num b => if b < 0 then minf else pinf
  | minf, num b => if b < 0 then pinf else minf
  | num _, pinf => num 0
  | num _, minf => num 0
  | num a, num b =>
      if b = 0 then (if a = 0 then nan else if a < 0 then minf else pinf)
      else num (a / b)

/-- `pandas.isna` on a single cell: true exactly for NaN (infinities are
not NA). -/
def isNA : PVal → Bool
  | nan => true
  | _ => false

end PVal

/-- `Series.diff()` on a column with no missing values, second and later
rows: each cell is the difference to the previous row's cell.  `prev` is
the value of the row immediately before the remaining list. -/
def diff_go (prev : ℚ) : List ℚ → List PVal
  | [] => []
  | x :: xs => PVal.num (x - prev) :: diff_go x xs

/-- `Series.diff()` on a column with no missing values: the leading row
becomes NaN, every later row the difference to its predecessor. -/
def diffP : List ℚ → List PVal
  | [] => []
  | x :: xs => PVal.nan :: diff_go x xs

/-- `dropna` on a single column: keep (and unwrap) exactly the non-NaN
finite cells.  On the columns this development applies it to, every
non-NaN cell is finite, so dropping NaN and unwrapping coincide. -/
def dropna (l : List PVal) : List ℚ :=
  l.filterMap fun v => match v with
    | PVal.num q => some q
    | _ => none

/-- `make_stationary` from the notebook, on one column:
`df.diff().dropna()` — first differences with the leading NaN row
dropped.  The source maps this over every column of every frame
(`hist_data_all_stocks[i] = hist_data_all_stocks[i].diff().dropna()`);
since the post-indicator frames have no NaN cells, `dropna` removes
exactly the leading row in every column simultaneously, so the frame
operation is this function applied columnwise. -/
def make_stationary (xs : List ℚ) : List ℚ := dropna (diffP xs)

/-- `make_stationary` applied to a whole frame, columnwise. -/
def make_stationary_frame (cols : List (List ℚ)) : List (List ℚ) :=
  cols.map make_stationary

/-- `format_dataset` from the notebook: for `i` in
`range(CNN_input_vector_size, len(x_values))` collect the feature-row
window `x_values[(i - size):i]` and the label `y_values[i]`.  Python's
`range(s, n)` is `List.range' s (n - s)`; the slice `x[(i-s):i]` is
`(x.take i).drop (i - s)`; the label lookup `y_values[i]` raises
`IndexError` when `i ≥ len(y_values)` and is modelled by `List.get?`
(under the pipeline's equal-length inputs every lookup succeeds). -/
def format_dataset (x_values : List (List ℚ)) (y_values : List ℚ)
    (size : Nat) : List (List (List ℚ)) × List ℚ :=
  ((List.range' size (x_values.length - size)).map
      (fun i => (x_values.take i).drop (i - size)),
   (List.range' size (x_values.length - size)).filterMap
      (fun i => y_values.get? i))

/-- Signed price delta `Open.diff()` at row `i`, as a rational.  The
source cell at row 0 is NaN; `rsiP` accounts for that row separately and
only consults this function at rows `i ≥ 1` (out-of-range lookups default
to 0 and are never consulted by the frame, which ranges over the actual
row indices). -/
def delta (opens : List ℚ) (i : Nat) : ℚ :=
  opens.getD i 0 - opens.getD (i - 1) 0

/-- Up-moves `delta.clip(lower=0)` at row `i ≥ 1`. -/
def up_move (opens : List ℚ) (i : Nat) : ℚ := max (delta opens i) 0

/-- Down-moves `-1 * delta.clip(upper=0)` at row `i ≥ 1`. -/
def down_move (opens : List ℚ) (i : Nat) : ℚ := max (-delta opens i) 0

/-- `up.ewm(com=14, adjust=False).mean()` at row `i ≥ 1`.  Pandas leaves
row 0 NaN (the diff's leading NaN), starts the recursion at the first
non-NaN input (row 1) and then applies `y = (1-α)·y_prev + α·x` with
`α = 1/(1+com) = 1/15`.  The value at 0 is irrelevant (that row of the
source column is NaN and `rsiP` returns NaN there). -/
def ema_up (opens : List ℚ) : Nat → ℚ
  | 0 => 0
  | 1 => up_move opens 1
  | i + 2 => (14/15) * ema_up opens (i + 1) + (1/15) * up_move opens (i + 2)

/-- `down.ewm(com=14, adjust=False).mean()` at row `i ≥ 1`; see `ema_up`. -/
def ema_down (opens : List ℚ) : Nat → ℚ
  | 0 => 0
  | 1 => down_move opens 1
  | i + 2 => (14/15) * ema_down opens (i + 1) + (1/15) * down_move opens (i + 2)

/-- The RSI column `100 - (100/(1 + rs))` with `rs = ema_up/ema_down`,
evaluated with IEEE float semantics via `PVal`: row 0 is NaN (the diff's
leading NaN propagates through clip, ewm and the arithmetic); at later
rows a zero down-EMA makes `rs` +inf when the up-EMA is positive (so the
RSI is the finite value 100) and NaN (0/0) when both EMAs are zero. -/
def rsiP (opens : List ℚ) (i : Nat) : PVal :=
  if i = 0 then PVal.nan
  else
    PVal.sub (PVal.num 100)
      (PVal.div (PVal.num 100)
        (PVal.add (PVal.num 1)
          (PVal.div (PVal.num (ema_up opens i)) (PVal.num (ema_down opens i)))))

/-- The trailing window of (at most) `w` rows ending at row `i`
(rows `i+1-w` … `i`), as used by `Open.rolling(w)`. -/
def trailing_window (w : Nat) (xs : List ℚ) (i : Nat) : List ℚ :=
  (xs.take (i + 1)).drop (i + 1 - w)

/-- The square of `Open.rolling(w).std()` at a row with a full window:
the `ddof=1` sample variance of the trailing window — an exact rational,
whereas the source's standard deviation is its (generally irrational)
square root.  Squaring is injective on the nonnegative standard
deviations and preserves definedness, and no claim depends on the
unsquared magnitude. -/
def rolling_std_sq (w : Nat) (xs : List ℚ) (i : Nat) : ℚ :=
  let win := trailing_window w xs i
  let m := win.sum / (w : ℚ)
  (win.map (fun x => (x - m) ^ 2)).sum / ((w : ℚ) - 1)

/-- The volatility column `Open.rolling(w).std()`, modulo the squaring
explained at `rolling_std_sq`: NaN until the window holds `w` rows
(pandas default `min_periods = window`) and for `w = 1`, where the
`ddof=1` sample deviation is the NaN 0/0. -/
def volP (w : Nat) (xs : List ℚ) (i : Nat) : PVal :=
  if 2 ≤ w ∧ w ≤ i + 1 then PVal.num (rolling_std_sq w xs i) else PVal.nan

/-- `Open.rolling(w).mean()` at a row with a full window. -/
def rolling_mean (w : Nat) (xs : List ℚ) (i : Nat) : ℚ :=
  (trailing_window w xs i).sum / (w : ℚ)

/-- The moving-average column `Open.rolling(w).mean()`: NaN until the
window holds `w` rows. -/
def maP (w : Nat) (xs : List ℚ) (i : Nat) : PVal :=
  if 1 ≤ w ∧ w ≤ i + 1 then PVal.num (rolling_mean w xs i) else PVal.nan

/-- `Open.ewm(span=s).mean()` with the pandas default `adjust=True`:
`y_i = (Σ_j (1-α)^j · x_{i-j}) / (Σ_j (1-α)^j)` over `j ≤ i`, with
`α = 2/(s+1)` passed here directly as `alp`.  Defined at every row (the
`Open` column has no NaN). -/
def ewm_adjusted (alp : ℚ) (xs : List ℚ) (i : Nat) : ℚ :=
  (((List.range (i + 1)).map (fun j => (1 - alp) ^ j * xs.getD (i - j) 0)).sum) /
    (((List.range (i + 1)).map (fun j => (1 - alp) ^ j)).sum)

/-- The MACD column: span-12 EMA minus span-26 EMA of the open price
(`α = 2/13` and `α = 2/27`); never NaN. -/
def macdP (xs : List ℚ) (i : Nat) : PVal :=
  PVal.num (ewm_adjusted (2/13) xs i - ewm_adjusted (2/27) xs i)

/-- The momentum column `Open - Open.shift(w)`: NaN for the first `w`
rows, then the difference to the row `w` steps back. -/
def momP (w : Nat) (xs : List ℚ) (i : Nat) : PVal :=
  if w ≤ i then PVal.num (xs.getD i 0 - xs.getD (i - w) 0) else PVal.nan

/-- One row of the post-indicator frame, with the fields in the
notebook's final column order `Open, Vol_w, RSI, MACD, Mom_w, MA_w,
Close` (`calc_technical_indicators` moves the `Close` column to the last
position). -/
structure IndicatorRow where
  openv : PVal
  vol : PVal
  rsi : PVal
  macd : PVal
  mom : PVal
  ma : PVal
  close : PVal
deriving DecidableEq, Repr

/-- The row of the indicator frame at index `i`, before `dropna`. -/
def indicator_row (vw mw maw : Nat) (opens closes : List ℚ) (i : Nat) :
    IndicatorRow :=
  ⟨PVal.num (opens.getD i 0), volP vw opens i, rsiP opens i, macdP opens i,
   momP mw opens i, maP maw opens i, PVal.num (closes.getD i 0)⟩

/-- `DataFrame.dropna()` row predicate: a row is dropped exactly when one
of its cells is NaN. -/
def row_isna (r : IndicatorRow) : Bool :=
  r.openv.isNA || r.vol.isNA || r.rsi.isNA || r.macd.isNA || r.mom.isNA ||
    r.ma.isNA || r.close.isNA

/-- The row indices of the input frame surviving the `dropna()` inside
`calc_technical_indicators`. -/
def kept_indices (vw mw maw : Nat) (opens closes : List ℚ) : List Nat :=
  (List.range opens.length).filter
    (fun i => !(row_isna (indicator_row vw mw maw opens closes i)))

/-- `calc_technical_indicators` for one ticker: append the Volatility,
RSI, MACD, Momentum and Moving-Average columns derived from `Open`, drop
every row containing a NaN, and reorder so `Close` is the last column
(the field order of `IndicatorRow`).  `vw`, `mw`, `maw` are the
volatility, momentum and moving-average windows (all defaulting to 20 in
the source). -/
def calc_technical_indicators (vw mw maw : Nat) (opens closes : List ℚ) :
    List IndicatorRow :=
  (kept_indices vw mw maw opens closes).map
    (indicator_row vw mw maw opens closes)

/-- `itertools.combinations(l, k)`: all strictly-increasing index
selections of `k` elements of `l`, in the library's order (combinations
containing an earlier element come first; within that, the remaining
positions again in order). -/
def combinations {α : Type} : Nat → List α → List (List α)
  | 0, _ => [[]]
  | _ + 1, [] => []
  | k + 1, x :: xs =>
      (combinations k xs).map (fun s => x :: s) ++ combinations (k + 1) xs

/-- The `feature_combinations` cell of the notebook:
`n_features = columns[0:len(columns)-1]` (every column except the last,
which is `Close`), then for `i in range(len(columns)+1)` and each
`itertools.combinations(n_features, i)`, keep the nonempty ones and
append `"Close"`. -/
def feature_combinations (columns : List String) : List (List String) :=
  let n_features := columns.take (columns.length - 1)
  (List.range (columns.length + 1)).flatMap fun i =>
    ((combinations i n_features).filter (fun s => ¬s.length = 0)).map
      (fun s => s ++ ["Close"])

/-- The column order of the default pipeline's post-indicator frames:
`get_historical_stock_data` leaves `[Open, Close]` and
`calc_technical_indicators` (default windows 20/20/20) appends its five
columns and moves `Close` last. -/
def default_columns : List String :=
  ["Open", "Vol_20", "RSI", "MACD", "Mom_20", "MA_20", "Close"]

/-- `MinMaxScaler.fit` on one column: record the observed minimum and
maximum (`data_min_`, `data_max_`).  The pipeline never fits on an empty
column (sklearn would raise); the empty case defaults to `(0, 0)`. -/
def fitMinMax (c : List ℚ) : ℚ × ℚ :=
  (c.foldr min (c.headD 0), c.foldr max (c.headD 0))

/-- `MinMaxScaler.transform` for feature range `[0,1]`:
`(x - min) / (max - min)`, with sklearn's zero-range handling (a zero
range divides by 1). -/
def minmax_transform (p : ℚ × ℚ) (x : ℚ) : ℚ :=
  if p.2 - p.1 = 0 then x - p.1 else (x - p.1) / (p.2 - p.1)

/-- One column-scaling step of `scale_values`: `fit_transform` returns
the fitted scaler (kept for the later inverse transform) together with
the scaled column.  `scale_values` applies this to each feature column
and to the target column of every (stock, subset) frame — over the whole
column, before any train/test split. -/
def scale_column (c : List ℚ) : (ℚ × ℚ) × List ℚ :=
  (fitMinMax c, c.map (minmax_transform (fitMinMax c)))

/-- The number of training rows used by
`train_test_split(..., train_size=0.8, shuffle=False)`:
`floor(0.8·n)`, here as exact arithmetic `4n/5` (the float evaluation
agrees on all row counts relevant to the claims). -/
def train_count (n : Nat) : Nat := 4 * n / 5

/-- `split_data` for one (stock, subset):
`train_test_split(x, y, train_size=0.8, shuffle=False)` — the first
`train_count` rows of the already-scaled arrays form the training slice,
the remainder the test slice, contiguous and order-preserving. -/
def split_data (xs : List ℚ) (ys : List ℚ) :
    List ℚ × List ℚ × List ℚ × List ℚ :=
  (xs.take (train_count xs.length), xs.drop (train_count xs.length),
   ys.take (train_count ys.length), ys.drop (train_count ys.length))

/-- `np.sign` on an exact value: 1, -1 or 0. -/
def np_sign (q : ℚ) : Int := if 0 < q then 1 else if q < 0 then -1 else 0

/-- The `same_direction` counter of the evaluation loop: the number of
positions `k` with `np.sign(pred_rescaled[k]) == np.sign(y_test_rescaled[k])`
(the lookup `y_test_rescaled[k]` is in range because both arrays are the
rescaled test window, of equal length). -/
def same_direction (pred y_test : List ℚ) : Nat :=
  ((List.range pred.length).filter
    (fun k => np_sign (pred.getD k 0) = np_sign (y_test.getD k 0))).length

/-- The directional accuracy recorded by the evaluation loop:
`same_direction / len(pred_rescaled)`. -/
def direction_accuracy (pred y_test : List ℚ) : ℚ :=
  (same_direction pred y_test : ℚ) / (pred.length : ℚ)

/-- The "reverse the first difference method" step of the evaluation
loop: entry `k` is
`close_ns.iloc[len(close_ns) - len(vals) + k] + vals[k]`, where
`close_ns` is the retained non-stationary `Close` column and `vals` the
differenced, rescaled predictions (or held-out targets). -/
def reverse_first_difference (close_ns : List ℚ) (vals : List ℚ) : List ℚ :=
  (List.range vals.length).map
    (fun k => close_ns.getD (close_ns.length - vals.length + k) 0 +
      vals.getD k 0)

/-- Every name bound at the notebook's top level before the stationarity
check runs: the bindings of the import cell followed by the function
definitions and the global variables assigned by the earlier cells.  The
name `kpss` called inside `test_stationary` is not among them (no
`statsmodels` import appears anywhere in the notebook). -/
def notebook_global_names : List String :=
  ["np", "pd", "os", "plt", "yfinance", "datetime", "time", "itertools",
   "MinMaxScaler", "train_test_split", "Sequential", "load_model", "Dense",
   "Flatten", "Conv1D", "MaxPooling1D", "mean_absolute_error",
   "get_historical_stock_data", "tickers", "start_date", "end_date",
   "hist_data_all_stocks", "calc_technical_indicators",
   "hist_data_all_stocks_non_stationary", "make_stationary",
   "hist_data_all_stocks_stationary", "test_stationary", "i", "j"]

/-- The per-ticker download loop of `get_historical_stock_data`, with
Python's `for`-statement semantics made explicit: the iterator keeps an
index `i` into the (mutable) `tickers` list, yields `tickers[i]` and
advances; a fetch failure executes `tickers.remove(ticker)` (delete the
first occurrence) on the list being iterated, so the element that slides
into the removed slot is never yielded.  `fetch t = none` models the
`try` body raising for ticker `t` (in which case no frame is appended),
`some df` a successful download-and-drop.  The loop runs at most
`tickers.length` iterations (the index grows by one per iteration and
the list never grows), which bounds the structural `fuel`. -/
def fetch_go {α : Type} (fetch : String → Option α) :
    Nat → List String → Nat → List α → List String × List α
  | 0, tickers, _, acc => (tickers, acc)
  | fuel + 1, tickers, i, acc =>
      if h : i < tickers.length then
        match fetch (tickers.get ⟨i, h⟩) with
        | some df => fetch_go fetch fuel tickers (i + 1) (acc ++ [df])
        | none => fetch_go fetch fuel (tickers.erase (tickers.get ⟨i, h⟩))
            (i + 1) acc
      else (tickers, acc)

/-- `get_historical_stock_data`, abstracted over the yfinance download
(`fetch`): returns the ticker list as it stands after the loop together
with the collected list of frames. -/
def get_historical_stock_data {α : Type} (fetch : String → Option α)
    (tickers : List String) : List String × List α :=
  fetch_go fetch tickers.length tickers 0 []

/-- Helper fact: `diff_go` never produces a NaN cell, so `dropna` keeps
everything; the result pairs every element with its predecessor. -/
theorem dropna_diff_go (prev : ℚ) (l : List ℚ) :
    dropna (diff_go prev l) = List.zipWith (fun a b => a - b) l (prev :: l) := by
  induction l generalizing prev with
  | nil => rfl
  | cons y t ih => simp [diff_go, dropna, List.filterMap] at ih ⊢; exact ih y

/-- Helper fact: on a nonempty column, `make_stationary` is the list of
consecutive differences. -/
theorem make_stationary_cons (x : ℚ) (rest : List ℚ) :
    make_stationary (x :: rest) = List.zipWith (fun a b => a - b) rest (x :: rest) := by
  simp [make_stationary, diffP, dropna, List.filterMap] at *
  simpa [dropna, List.filterMap] using dropna_diff_go x rest

/-- Helper fact: `make_stationary` shortens a column by exactly one row
(truncated at zero for the empty column). -/
theorem make_stationary_length (xs : List ℚ) :
    (make_stationary xs).length = xs.length - 1 := by
  cases xs with
  | nil => rfl
  | cons x rest => simp [make_stationary_cons]

/-- Helper fact: the running-sum round trip for consecutive differences. -/
theorem scanl_make_stationary (x : ℚ) (rest : List ℚ) :
    List.scanl (fun a b => a + b) x (make_stationary (x :: rest)) = x :: rest := by
  rw [make_stationary_cons]
  induction rest generalizing x with
  | nil => rfl
  | cons y t ih =>
      simp only [List.zipWith, List.scanl]
      have : x + (y - x) = y := by ring
      rw [this, ih y]

/-- Claim C8: for every Series column of length N ≥ 1, the Stationarity
Transform outputs the consecutive first differences, of length N − 1 with
the leading undefined row dropped; applying it again to its own output is
again defined (length N − 2); and the running sum of the differences
started at the first original value reconstructs the original column
exactly. -/
theorem C8_stationarity_transform_round_trip (x : ℚ) (rest : List ℚ) :
    (make_stationary (x :: rest)).length = (x :: rest).length - 1
    ∧ make_stationary (x :: rest) =
        List.zipWith (fun a b => a - b) rest (x :: rest)
    ∧ (make_stationary (make_stationary (x :: rest))).length =
        (x :: rest).length - 2
    ∧ List.scanl (fun a b => a + b) x (make_stationary (x :: rest)) =
        x :: rest := by
  refine ⟨make_stationary_length _, make_stationary_cons x rest, ?_,
    scanl_make_stationary x rest⟩
  rw [make_stationary_length, make_stationary_length]
  omega

/-- Helper fact: collecting `ys.get? i` over `i = s, …, s+n-1` succeeds
everywhere when the range stays inside `ys`, giving the contiguous slice. -/
theorem range'_filterMap_get {β : Type} (n : Nat) :
    ∀ (s : Nat) (ys : List β), s + n ≤ ys.length →
      (List.range' s n).filterMap ys.get? = (ys.drop s).take n := by
  induction n with
  | zero => intro s ys _; simp
  | succ m ih =>
      intro s ys h
      have hs : s < ys.length := by omega
      rw [List.range'_succ, List.filterMap_cons, List.get?_eq_get hs]
      rw [List.drop_eq_getElem_cons hs, List.take_succ_cons,
        ih (s + 1) ys (by omega)]
      rfl

/-- Claim C6: for a feature matrix and target vector of common length N
and window length L, `format_dataset` produces N − L samples when L < N
and none when L ≥ N; sample k (k = i − L for the source's loop variable
i ∈ [L, N)) has as input the feature rows [i−L, i) = [k, k+L) and as
label target row i = L + k. -/
theorem C6_format_dataset_windows (x : List (List ℚ)) (y : List ℚ) (L : Nat)
    (h : y.length = x.length) :
    (format_dataset x y L).1.length = x.length - L
    ∧ (format_dataset x y L).2.length = x.length - L
    ∧ (x.length ≤ L → (format_dataset x y L).1 = []
        ∧ (format_dataset x y L).2 = [])
    ∧ (∀ k, k < x.length - L →
        (format_dataset x y L).1.get? k = some ((x.take (L + k)).drop k)
        ∧ (format_dataset x y L).2.get? k = y.get? (L + k)) := by
  have hsnd : (format_dataset x y L).2 = (y.drop L).take (x.length - L) := by
    by_cases hL : x.length ≤ L
    · have : x.length - L = 0 := by omega
      simp [format_dataset, this]
    · exact range'_filterMap_get (x.length - L) L y (by omega)
  refine ⟨?_, ?_, ?_, ?_⟩
  · simp [format_dataset]
  · rw [hsnd]
    simp
    omega
  · intro hL
    have : x.length - L = 0 := by omega
    simp [format_dataset, this]
  · intro k hk
    constructor
    · have hmap : (format_dataset x y L).1.get? k =
          ((List.range' L (x.length - L)).get? k).map
            (fun i => (x.take i).drop (i - L)) := by
        simp [format_dataset]
      rw [hmap, List.get?_range' _ _ hk]
      have hLk : L + 1 * k = L + k := by ring
      rw [hLk]
      simp only [Option.map_some']
      congr 2
      omega
    · rw [hsnd, List.get?_take hk, List.get?_drop]

/-- Witness for C6 at the concrete input N = 3, L = 2. -/
theorem C6_format_dataset_windows_witness :
    ([10, 20, 30] : List ℚ).length = ([[1], [2], [3]] : List (List ℚ)).length
    ∧ (format_dataset [[1], [2], [3]] [10, 20, 30] 2).1.length = 3 - 2 :=
  ⟨rfl, (C6_format_dataset_windows [[1], [2], [3]] [10, 20, 30] 2 rfl).1⟩

/-- Helper fact: `np.sign` vanishes exactly on zero. -/
theorem np_sign_eq_zero_iff (q : ℚ) : np_sign q = 0 ↔ q = 0 := by
  unfold np_sign
  split_ifs with h1 h2
  · exact iff_of_false (by norm_num)
      (fun h => by rw [h] at h1; exact lt_irrefl 0 h1)
  · exact iff_of_false (by norm_num)
      (fun h => by rw [h] at h2; exact lt_irrefl 0 h2)
  · exact iff_of_true rfl (by linarith)

/-- Helper fact: the loop counter `same_direction` counts the positions of
the zipped prediction/target lists whose signs agree. -/
theorem same_direction_eq_countP :
    ∀ (pred y_test : List ℚ), pred.length = y_test.length →
      same_direction pred y_test =
        (List.zip pred y_test).countP (fun p => np_sign p.1 == np_sign p.2) := by
  intro pred
  induction pred with
  | nil => intro y _; simp [same_direction]
  | cons a pt ih =>
      intro y h
      cases y with
      | nil => simp at h
      | cons b yt =>
          have hlen : pt.length = yt.length := by simpa using h
          simp only [same_direction, List.length_cons, List.range_succ_eq_map,
            List.filter_cons, List.filter_map, List.length_map, List.zip_cons_cons,
            List.countP_cons]
          have hcomp :
              (List.filter
                ((fun k => decide (np_sign ((a :: pt).getD k 0) =
                    np_sign ((b :: yt).getD k 0))) ∘ Nat.succ) (List.range pt.length))
              = (List.filter
                (fun k => decide (np_sign (pt.getD k 0) =
                    np_sign (yt.getD k 0))) (List.range pt.length)) := rfl
          rw [hcomp]
          have ihv := ih yt hlen
          simp only [same_direction] at ihv
          simp only [List.getD_cons_zero]
          by_cases hs : np_sign a = np_sign b
          · simp [hs]
            simpa using ihv
          · simp [hs, beq_iff_eq]
            simpa using ihv

/-- Helper fact: against the all-zero prediction vector, a sign match at a
position means the true delta there is exactly zero. -/
theorem countP_zip_replicate_zero (y : List ℚ) :
    (List.zip (List.replicate y.length (0 : ℚ)) y).countP
        (fun p => np_sign p.1 == np_sign p.2)
      = y.countP (fun v => v == 0) := by
  induction y with
  | nil => rfl
  | cons b yt ih =>
      simp only [List.length_cons, List.replicate_succ, List.zip_cons_cons,
        List.countP_cons, ih]
      congr 1
      have h0 : np_sign 0 = 0 := by simp [np_sign]
      by_cases hb : b = 0
      · subst hb; simp [h0]
      · have hb' : np_sign b ≠ 0 := fun hh => hb ((np_sign_eq_zero_iff b).mp hh)
        simp [h0, beq_iff_eq, hb]
        exact fun hh => hb' hh.symm

/-- Claim C7 (amended): directional accuracy is the fraction of positions
whose `np.sign` matches between the differenced, rescaled predictions and
the true held-out values, both taken before reconstruction; consequently a
model that always predicts zero change scores the empirical fraction of
true deltas that are exactly zero (`np.sign 0 = 0` matches only sign 0),
not the fraction of non-negative ones. -/
theorem C7_direction_accuracy_sign_match :
    (∀ pred y_test : List ℚ, pred.length = y_test.length →
      direction_accuracy pred y_test =
        ((List.zip pred y_test).countP
            (fun p => np_sign p.1 == np_sign p.2) : ℚ) / (pred.length : ℚ))
    ∧ ∀ y_test : List ℚ,
        direction_accuracy (List.replicate y_test.length 0) y_test =
          (y_test.countP (fun v => v == 0) : ℚ) / (y_test.length : ℚ) := by
  constructor
  · intro pred y h
    rw [direction_accuracy, same_direction_eq_countP pred y h]
  · intro y
    rw [direction_accuracy, same_direction_eq_countP _ y (by simp),
      countP_zip_replicate_zero, List.length_replicate]

/-- Witness for the hypothesis-bearing half of C7's theorem at a concrete
input. -/
theorem C7_direction_accuracy_sign_match_witness :
    ([1] : List ℚ).length = ([2] : List ℚ).length
    ∧ direction_accuracy [1] [2] =
        ((List.zip ([1] : List ℚ) ([2] : List ℚ)).countP
            (fun p => np_sign p.1 == np_sign p.2) : ℚ)
          / (([1] : List ℚ).length : ℚ) :=
  ⟨rfl, C7_direction_accuracy_sign_match.1 [1] [2] rfl⟩

/-- Counterexample to claim C7 as stated: on true deltas [1, -1] the
always-zero predictor's directional accuracy is 0, while the empirical
fraction of non-negative true deltas is 1/2. -/
theorem C7_zero_predictor_counterexample :
    direction_accuracy [0, 0] [1, -1] = 0
    ∧ ((([1, -1] : List ℚ).countP (fun v => decide (0 ≤ v)) : ℚ))
        / (([1, -1] : List ℚ).length : ℚ) = 1 / 2
    ∧ (0 : ℚ) ≠ 1 / 2 := by
  have h1 : same_direction [0, 0] [1, -1] = 0 := by decide
  have h2 : ([1, -1] : List ℚ).countP (fun v => decide (0 ≤ v)) = 1 := by decide
  refine ⟨?_, ?_, by norm_num⟩
  · rw [direction_accuracy, h1]
    norm_num
  · rw [h2]
    norm_num

/-- Counterexample to claim C2 as stated: on the default pipeline's
post-indicator columns, the enumerated subsets number 2^6 − 1 = 63, not
2^5 − 1 = 31 — `n_features = columns[0:len(columns)-1]` keeps every
non-target column, which includes the raw `Open` price column alongside
the five indicators. -/
theorem C2_subset_count_counterexample :
    (feature_combinations default_columns).length = 2 ^ 6 - 1
    ∧ ¬((feature_combinations default_columns).length = 2 ^ 5 - 1) := by decide

/-- Claim C2 (amended): on the default pipeline's columns the Feature
Subset Enumerator produces exactly all 2^6 − 1 = 63 non-empty subsets of
the non-target columns (`Open` plus the five indicators), each an ordered
sequence preserving original column order (a sublist of the non-target
columns) with `Close` appended, without duplicates, ordered by subset
size ascending and combinatorially within each size. -/
theorem C2_feature_combinations_enumeration :
    (feature_combinations default_columns).length = 2 ^ 6 - 1
    ∧ (feature_combinations default_columns).Nodup
    ∧ (∀ s ∈ feature_combinations default_columns,
        s ≠ [] ∧ s.getLast? = some "Close" ∧ s.dropLast ≠ []
        ∧ s.dropLast ∈ (default_columns.dropLast).sublists)
    ∧ (∀ t ∈ (default_columns.dropLast).sublists, t ≠ [] →
        t ++ ["Close"] ∈ feature_combinations default_columns)
    ∧ (feature_combinations default_columns).Pairwise
        (fun a b => a.length ≤ b.length) := by
  refine ⟨by decide, ?_⟩
  set_option maxRecDepth 4000 in decide

/-- Counterexample to claim C3 as stated: two target columns agreeing on
the training slice (the first `train_count 5 = 4` rows) but differing on
the test slice fit different scalers, because `scale_values` fits each
scaler on the whole column before `split_data` runs. -/
theorem C3_scaler_training_only_counterexample :
    ([0, 1, 2, 3, 100] : List ℚ).take (train_count 5)
      = ([0, 1, 2, 3, 4] : List ℚ).take (train_count 5)
    ∧ (scale_column [0, 1, 2, 3, 100]).1 ≠ (scale_column [0, 1, 2, 3, 4]).1 :=
  ⟨by decide, by decide⟩

/-- Claim C3 (amended): per (stock, subset) each scaler is fitted exactly
once, but on the entire column — features and target are scaled before
the chronological split — and those identical fitted parameters (the
min/max of the whole column, training and test rows alike) are what
produce both the training slice and the test slice handed downstream. -/
theorem C3_single_scaler_both_slices (ys : List ℚ) :
    (split_data (scale_column ys).2 (scale_column ys).2).1
        = (ys.take (train_count ys.length)).map (minmax_transform (fitMinMax ys))
    ∧ (split_data (scale_column ys).2 (scale_column ys).2).2.1
        = (ys.drop (train_count ys.length)).map
            (minmax_transform (fitMinMax ys)) := by
  have hlen : (scale_column ys).2.length = ys.length := by simp [scale_column]
  constructor
  · simp [split_data, hlen, scale_column, List.map_take]
  · simp [split_data, hlen, scale_column, List.map_drop]

/-- Claim C1 (code evaluated at the failing input): the evaluation loop's
reconstruction adds the differenced value onto the non-stationary Close
level at the same offset from the end of the original series — the level
of the predicted row itself, not of the row preceding it.  For the
non-stationary Close column [1, 2, 4], the true held-out differenced
target for the final row is 2 (= 4 − 2); the loop reconstructs 4 + 2 = 6,
which differs from the original Close value 4 at that row, whereas the
preceding row's level would have reconstructed 2 + 2 = 4 exactly. -/
theorem C1_reconstruction_off_by_one :
    (make_stationary [1, 2, 4]).drop 1 = [2]
    ∧ reverse_first_difference [1, 2, 4] [2] = [6]
    ∧ ([1, 2, 4] : List ℚ).getD 2 0 = 4
    ∧ ((6 : ℚ) ≠ 4)
    ∧ ([1, 2, 4] : List ℚ).getD 1 0 + 2 = 4 := by
  refine ⟨?_, ?_, by norm_num, by norm_num, by norm_num⟩
  · norm_num [make_stationary, diffP, diff_go, dropna, List.filterMap_cons,
      List.filterMap_nil]
  · norm_num [reverse_first_difference, List.range_succ]

/-- Claim C9 (failing precondition): the name `kpss` called by
`test_stationary` is bound nowhere in the notebook — it is not among the
names imported or assigned at top level before the stationarity-check
loop — so the loop's first call raises `NameError` and halts the run
instead of returning a Boolean. -/
theorem C9_kpss_unbound : "kpss" ∉ notebook_global_names := by decide

/-- Claim C10 (code evaluated at the failing input): with the fetch
failing exactly for ticker "BAD", `get_historical_stock_data` on
["BAD", "G1", "G2"] removes "BAD" but then skips "G1" entirely (the
in-place removal shifts the list under the live iteration index), so
"G1" stays in the surviving ticker list yet contributes no frame: the
result pairs two surviving tickers with a single frame, the frame at
position 0 belonging to "G2" rather than to the surviving list's
position-0 ticker "G1". -/
theorem C10_failed_fetch_skips_next_ticker :
    get_historical_stock_data
        (fun t => if t = "BAD" then none else some t) ["BAD", "G1", "G2"]
      = (["G1", "G2"], ["G2"])
    ∧ (["G1", "G2"] : List String).length ≠ (["G2"] : List String).length :=
  ⟨by decide, by decide⟩

/-- Helper fact: the smoothed up-move average is nonnegative. -/
theorem ema_up_nonneg (opens : List ℚ) : ∀ i, 0 ≤ ema_up opens i
  | 0 => le_refl 0
  | 1 => le_max_right _ _
  | (i + 2) => by
      have h1 := ema_up_nonneg opens (i + 1)
      have h2 : (0:ℚ) ≤ up_move opens (i + 2) := le_max_right _ _
      have h3 := mul_nonneg (by norm_num : (0:ℚ) ≤ 14/15) h1
      have h4 := mul_nonneg (by norm_num : (0:ℚ) ≤ 1/15) h2
      simp only [ema_up]
      linarith

/-- Helper fact: the smoothed down-move average is nonnegative. -/
theorem ema_down_nonneg (opens : List ℚ) : ∀ i, 0 ≤ ema_down opens i
  | 0 => le_refl 0
  | 1 => le_max_right _ _
  | (i + 2) => by
      have h1 := ema_down_nonneg opens (i + 1)
      have h2 : (0:ℚ) ≤ down_move opens (i + 2) := le_max_right _ _
      have h3 := mul_nonneg (by norm_num : (0:ℚ) ≤ 14/15) h1
      have h4 := mul_nonneg (by norm_num : (0:ℚ) ≤ 1/15) h2
      simp only [ema_down]
      linarith

/-- Helper fact: once the first up-move is positive, the up-EMA stays
positive at every later row (the decay factor 14/15 never kills it). -/
theorem ema_up_pos_of (opens : List ℚ) (h : 0 < up_move opens 1) :
    ∀ i, 1 ≤ i → 0 < ema_up opens i := by
  intro i hi
  induction i, hi using Nat.le_induction with
  | base => simpa [ema_up] using h
  | succ n hn ih =>
      obtain ⟨j, rfl⟩ : ∃ j, n = j + 1 := ⟨n - 1, by omega⟩
      have h3 := mul_pos (by norm_num : (0:ℚ) < 14/15) ih
      have h4 : (0:ℚ) ≤ up_move opens (j + 2) := le_max_right _ _
      have h5 := mul_nonneg (by norm_num : (0:ℚ) ≤ 1/15) h4
      simp only [ema_up]
      linarith

/-- Helper fact: once the first down-move is positive, the down-EMA stays
positive at every later row. -/
theorem ema_down_pos_of (opens : List ℚ) (h : 0 < down_move opens 1) :
    ∀ i, 1 ≤ i → 0 < ema_down opens i := by
  intro i hi
  induction i, hi using Nat.le_induction with
  | base => simpa [ema_down] using h
  | succ n hn ih =>
      obtain ⟨j, rfl⟩ : ∃ j, n = j + 1 := ⟨n - 1, by omega⟩
      have h3 := mul_pos (by norm_num : (0:ℚ) < 14/15) ih
      have h4 : (0:ℚ) ≤ down_move opens (j + 2) := le_max_right _ _
      have h5 := mul_nonneg (by norm_num : (0:ℚ) ≤ 1/15) h4
      simp only [ema_down]
      linarith

/-- Helper fact: when the first delta is nonzero, at every row from 1 on
at least one of the two smoothed averages is positive. -/
theorem ema_pos_or (opens : List ℚ) (hd : delta opens 1 ≠ 0) (i : Nat)
    (hi : 1 ≤ i) : 0 < ema_up opens i ∨ 0 < ema_down opens i := by
  rcases lt_trichotomy (delta opens 1) 0 with hlt | heq | hgt
  · right
    exact ema_down_pos_of opens (lt_max_iff.mpr (Or.inl (by linarith))) i hi
  · exact absurd heq hd
  · left
    exact ema_up_pos_of opens (lt_max_iff.mpr (Or.inl hgt)) i hi

/-- Helper fact: the three evaluation cases of the RSI cell at a row
i ≥ 1, by the sign of the down-EMA. -/
theorem rsiP_num_cases (opens : List ℚ) (i : Nat) (hi : 1 ≤ i) :
    (0 < ema_down opens i →
      rsiP opens i =
        PVal.num (100 - 100 / (1 + ema_up opens i / ema_down opens i)))
    ∧ (ema_down opens i = 0 → 0 < ema_up opens i →
        rsiP opens i = PVal.num 100)
    ∧ (ema_down opens i = 0 → ema_up opens i = 0 →
        rsiP opens i = PVal.nan) := by
  have hne : ¬i = 0 := by omega
  refine ⟨?_, ?_, ?_⟩
  · intro hdpos
    have hdne : ema_down opens i ≠ 0 := ne_of_gt hdpos
    have hr : (0:ℚ) ≤ ema_up opens i / ema_down opens i :=
      div_nonneg (ema_up_nonneg opens i) (le_of_lt hdpos)
    have h1 : (1:ℚ) + ema_up opens i / ema_down opens i ≠ 0 := by
      intro hc; rw [← hc] at hr; linarith
    simp only [rsiP, hne, if_false, PVal.div, PVal.add, PVal.sub, PVal.neg,
      if_neg hdne, if_neg h1]
    rw [sub_eq_add_neg]
  · intro hd0 hupos
    have hune : ema_up opens i ≠ 0 := ne_of_gt hupos
    have hnotlt : ¬ema_up opens i < 0 := not_lt.mpr (ema_up_nonneg opens i)
    simp only [rsiP, hne, if_false, PVal.div, PVal.add, PVal.sub, PVal.neg,
      hd0, if_pos rfl, if_neg hune, if_neg hnotlt]
    norm_num
  · intro hd0 hu0
    rw [rsiP, if_neg hne, hd0, hu0]
    decide

/-- Helper fact: from row 1 on, an RSI cell is NaN exactly when both
smoothed averages are zero. -/
theorem rsiP_nan_iff (opens : List ℚ) (i : Nat) (hi : 1 ≤ i) :
    rsiP opens i = PVal.nan ↔
      ema_up opens i = 0 ∧ ema_down opens i = 0 := by
  obtain ⟨hcpos, hc100, hcnan⟩ := rsiP_num_cases opens i hi
  constructor
  · intro hnan
    by_cases hd0 : ema_down opens i = 0
    · by_cases hu0 : ema_up opens i = 0
      · exact ⟨hu0, hd0⟩
      · have hupos : 0 < ema_up opens i :=
          lt_of_le_of_ne (ema_up_nonneg opens i) (Ne.symm hu0)
        rw [hc100 hd0 hupos] at hnan
        exact absurd hnan (by simp)
    · have hdpos : 0 < ema_down opens i :=
        lt_of_le_of_ne (ema_down_nonneg opens i) (Ne.symm hd0)
      rw [hcpos hdpos] at hnan
      exact absurd hnan (by simp)
  · intro ⟨hu0, hd0⟩
    exact hcnan hd0 hu0

/-- Helper fact: wherever an RSI cell holds a finite value, that value
lies in [0, 100]. -/
theorem rsiP_num_bounds (opens : List ℚ) (i : Nat) (q : ℚ)
    (hq : rsiP opens i = PVal.num q) : 0 ≤ q ∧ q ≤ 100 := by
  rcases Nat.eq_zero_or_pos i with hi | hi
  · subst hi
    exact absurd hq (by simp [rsiP])
  obtain ⟨hcpos, hc100, hcnan⟩ := rsiP_num_cases opens i hi
  by_cases hd0 : ema_down opens i = 0
  · by_cases hu0 : ema_up opens i = 0
    · rw [hcnan hd0 hu0] at hq
      exact absurd hq (by simp)
    · have hupos : 0 < ema_up opens i :=
        lt_of_le_of_ne (ema_up_nonneg opens i) (Ne.symm hu0)
      rw [hc100 hd0 hupos] at hq
      have : (100 : ℚ) = q := by injection hq
      constructor <;> linarith
  · have hdpos : 0 < ema_down opens i :=
      lt_of_le_of_ne (ema_down_nonneg opens i) (Ne.symm hd0)
    rw [hcpos hdpos] at hq
    have he : 100 - 100 / (1 + ema_up opens i / ema_down opens i) = q := by
      injection hq
    have hr : (0:ℚ) ≤ ema_up opens i / ema_down opens i :=
      div_nonneg (ema_up_nonneg opens i) (le_of_lt hdpos)
    have h1pos : (0:ℚ) < 1 + ema_up opens i / ema_down opens i := by linarith
    have hle : 100 / (1 + ema_up opens i / ema_down opens i) ≤ 100 :=
      div_le_self (by norm_num) (by linarith)
    have hpos : 0 < 100 / (1 + ema_up opens i / ema_down opens i) :=
      div_pos (by norm_num) h1pos
    constructor <;> linarith

/-- Claim C4 (amended): wherever the computed RSI is defined (a finite
cell) its value lies in [0, 100]; the RSI cell is undefined (NaN) exactly
at row 0 (the diff's leading NaN) and at the rows where BOTH smoothed
EMAs are zero — i.e. 0/0; at a row where the down-EMA is zero but the
up-EMA positive, the division yields +inf and the RSI is the defined
value 100, so a zero down-EMA alone does not make the RSI undefined. -/
theorem C4_rsi_range_and_undefinedness (opens : List ℚ) (i : Nat) :
    (∀ q : ℚ, rsiP opens i = PVal.num q → 0 ≤ q ∧ q ≤ 100)
    ∧ (rsiP opens i = PVal.nan ↔
        i = 0 ∨ (ema_up opens i = 0 ∧ ema_down opens i = 0)) := by
  refine ⟨fun q hq => rsiP_num_bounds opens i q hq, ?_⟩
  rcases Nat.eq_zero_or_pos i with hi | hi
  · subst hi
    simp [rsiP]
  · rw [rsiP_nan_iff opens i hi]
    have : ¬i = 0 := by omega
    tauto

/-- Helper fact: on the strictly rising two-price series [1, 2] the row-1
down-EMA is zero while the RSI evaluates to the finite value 100. -/
theorem rsiP_one_two_example :
    rsiP [1, 2] 1 = PVal.num 100 ∧ ema_down [1, 2] 1 = 0 := by
  have hdelta : delta [1, 2] 1 = 1 := by norm_num [delta]
  have hu : ema_up [1, 2] 1 = 1 := by
    simp only [ema_up, up_move, hdelta]
    norm_num [max_def]
  have hd : ema_down [1, 2] 1 = 0 := by
    simp only [ema_down, down_move, hdelta]
    norm_num [max_def]
  exact ⟨(rsiP_num_cases [1, 2] 1 (by norm_num)).2.1 hd (by rw [hu]; norm_num),
    hd⟩

/-- Counterexample to claim C4 as stated: at row 1 of the price series
[1, 2] the smoothed down-move EMA is exactly zero, yet the RSI there is
not an undefined marker — the source's float evaluation gives
up-EMA/0 = +inf and `100 − 100/(1 + inf)` = the defined value 100. -/
theorem C4_down_ema_zero_defined_counterexample :
    ema_down [1, 2] 1 = 0 ∧ rsiP [1, 2] 1 = PVal.num 100
    ∧ rsiP [1, 2] 1 ≠ PVal.nan := by
  obtain ⟨h100, h0⟩ := rsiP_one_two_example
  exact ⟨h0, h100, by rw [h100]; simp⟩

/-- Witness for C4's amended theorem at the concrete series [1, 2],
row 1, where the RSI cell holds the finite value 100. -/
theorem C4_rsi_range_and_undefinedness_witness :
    0 ≤ (100 : ℚ) ∧ (100 : ℚ) ≤ 100 :=
  (C4_rsi_range_and_undefinedness [1, 2] 1).1 100 rsiP_one_two_example.1

/-- Helper fact: a finite cell is never NA. -/
theorem PVal_isNA_num (q : ℚ) : (PVal.num q).isNA = false := rfl

/-- Helper fact: a volatility cell is non-NaN exactly when the window is
at least 2 wide and full. -/
theorem volP_isNA_false_iff (w : Nat) (xs : List ℚ) (i : Nat) :
    ((volP w xs i).isNA = false) ↔ (2 ≤ w ∧ w ≤ i + 1) := by
  unfold volP
  split <;> simp_all [PVal.isNA]

/-- Helper fact: a momentum cell is non-NaN exactly from row `w` on. -/
theorem momP_isNA_false_iff (w : Nat) (xs : List ℚ) (i : Nat) :
    ((momP w xs i).isNA = false) ↔ w ≤ i := by
  unfold momP
  split <;> simp_all [PVal.isNA]

/-- Helper fact: a moving-average cell is non-NaN exactly when the window
is at least 1 wide and full. -/
theorem maP_isNA_false_iff (w : Nat) (xs : List ℚ) (i : Nat) :
    ((maP w xs i).isNA = false) ↔ (1 ≤ w ∧ w ≤ i + 1) := by
  unfold maP
  split <;> simp_all [PVal.isNA]

/-- Helper fact: from row 1 on, an RSI cell of a series whose first two
prices differ is never NaN; row 0 always is. -/
theorem rsiP_isNA_false_iff (opens : List ℚ) (hd : delta opens 1 ≠ 0)
    (i : Nat) : ((rsiP opens i).isNA = false) ↔ 1 ≤ i := by
  constructor
  · intro h
    by_contra hi
    have hz : i = 0 := by omega
    subst hz
    simp [rsiP, PVal.isNA] at h
  · intro hi
    rcases ema_pos_or opens hd i hi with hu | hdp
    · by_cases hd0 : ema_down opens i = 0
      · rw [(rsiP_num_cases opens i hi).2.1 hd0 hu]; rfl
      · have hdpos : 0 < ema_down opens i :=
          lt_of_le_of_ne (ema_down_nonneg opens i) (Ne.symm hd0)
        rw [(rsiP_num_cases opens i hi).1 hdpos]; rfl
    · rw [(rsiP_num_cases opens i hi).1 hdp]; rfl

/-- Helper fact: keeping the indices at or above a threshold from
`range n` yields the contiguous range from the threshold to `n`. -/
theorem range_filter_ge (D n : Nat) :
    (List.range n).filter (fun i => decide (D ≤ i)) =
      List.range' D (n - D) := by
  induction n with
  | zero => simp
  | succ m ih =>
      rw [List.range_succ, List.filter_append, ih]
      by_cases hD : D ≤ m
      · have h1 : m + 1 - D = (m - D) + 1 := by omega
        have h2 : D + 1 * (m - D) = m := by omega
        rw [h1, List.range'_concat, h2]
        simp [hD]
      · have h1 : m + 1 - D = 0 := by omega
        have h2 : m - D = 0 := by omega
        simp [hD, h1, h2]

/-- Helper fact: under the definedness side conditions, a frame row
survives `dropna` exactly when its index is at least
`max (max (vw − 1) mw) (max (maw − 1) 1)`. -/
theorem row_isna_false_iff (vw mw maw : Nat) (opens closes : List ℚ)
    (h2 : 2 ≤ vw) (h1 : 1 ≤ maw) (hd : delta opens 1 ≠ 0) (i : Nat) :
    (row_isna (indicator_row vw mw maw opens closes i) = false) ↔
      max (max (vw - 1) mw) (max (maw - 1) 1) ≤ i := by
  have hvol := volP_isNA_false_iff vw opens i
  have hmom := momP_isNA_false_iff mw opens i
  have hma := maP_isNA_false_iff maw opens i
  have hrsi := rsiP_isNA_false_iff opens hd i
  simp only [row_isna, indicator_row, macdP, PVal_isNA_num,
    Bool.or_eq_false_iff, hvol, hmom, hma, hrsi, true_and, and_true]
  omega

/-- Helper fact: the indices surviving the indicator engine's `dropna`
are exactly the contiguous tail starting at
`max (max (vw − 1) mw) (max (maw − 1) 1)`. -/
theorem kept_indices_eq (vw mw maw : Nat) (opens closes : List ℚ)
    (h2 : 2 ≤ vw) (h1 : 1 ≤ maw) (hd : delta opens 1 ≠ 0) :
    kept_indices vw mw maw opens closes =
      List.range' (max (max (vw - 1) mw) (max (maw - 1) 1))
        (opens.length - max (max (vw - 1) mw) (max (maw - 1) 1)) := by
  rw [kept_indices, ← range_filter_ge]
  apply List.filter_congr
  intro i _
  by_cases hD : max (max (vw - 1) mw) (max (maw - 1) 1) ≤ i
  · have := (row_isna_false_iff vw mw maw opens closes h2 h1 hd i).mpr hD
    simp [hD, this]
  · have hne : ¬(row_isna (indicator_row vw mw maw opens closes i) = false) :=
      fun hc => hD ((row_isna_false_iff vw mw maw opens closes h2 h1 hd i).mp hc)
    have ht : row_isna (indicator_row vw mw maw opens closes i) = true := by
      simpa using hne
    simp [hD, ht]

/-- Claim C5 (amended): for a volatility window ≥ 2, a moving-average
window ≥ 1 and an input series whose first two prices differ (so the RSI
is defined from row 1 on), the rows dropped by the Indicator Engine are
exactly the leading rows lacking full lookback for some column, and their
number is `max(volatility_window − 1, momentum_window, ma_window − 1, 1)`
— not the largest configured window: the rolling columns need only w − 1
prior rows, the shift-based momentum needs w, and the RSI's diff needs 1.
The output row count is the input row count minus that maximum. -/
theorem C5_indicator_engine_row_count (vw mw maw : Nat)
    (opens closes : List ℚ) (h2 : 2 ≤ vw) (h1 : 1 ≤ maw)
    (hd : delta opens 1 ≠ 0) :
    kept_indices vw mw maw opens closes =
      List.range' (max (max (vw - 1) mw) (max (maw - 1) 1))
        (opens.length - max (max (vw - 1) mw) (max (maw - 1) 1))
    ∧ (calc_technical_indicators vw mw maw opens closes).length =
        opens.length - max (max (vw - 1) mw) (max (maw - 1) 1) := by
  have hk := kept_indices_eq vw mw maw opens closes h2 h1 hd
  refine ⟨hk, ?_⟩
  rw [calc_technical_indicators, hk]
  simp

/-- Witness for C5's amended theorem at the concrete configuration
(volatility 4, momentum 2, moving average 2) on the eight-row series
1..8: 3 = max(4−1, 2, 2−1, 1) rows are dropped. -/
theorem C5_indicator_engine_row_count_witness :
    (calc_technical_indicators 4 2 2 [1, 2, 3, 4, 5, 6, 7, 8]
        [1, 2, 3, 4, 5, 6, 7, 8]).length =
      ([1, 2, 3, 4, 5, 6, 7, 8] : List ℚ).length
        - max (max (4 - 1) 2) (max (2 - 1) 1) :=
  (C5_indicator_engine_row_count 4 2 2 [1, 2, 3, 4, 5, 6, 7, 8]
    [1, 2, 3, 4, 5, 6, 7, 8] (by norm_num) (by norm_num)
    (by norm_num [delta])).2

/-- Counterexample to claim C5 as stated: with windows (volatility 4,
momentum 2, moving average 2) on the eight-row series 1..8 the engine
keeps 5 rows, but the input row count minus the largest configured
window is 8 − 4 = 4. -/
theorem C5_largest_window_counterexample :
    (calc_technical_indicators 4 2 2 [1, 2, 3, 4, 5, 6, 7, 8]
        [1, 2, 3, 4, 5, 6, 7, 8]).length = 5
    ∧ ([1, 2, 3, 4, 5, 6, 7, 8] : List ℚ).length - max (max 4 2) 2 = 4
    ∧ (5 : Nat) ≠ 4 := by
  have hk := kept_indices_eq 4 2 2 [1, 2, 3, 4, 5, 6, 7, 8]
    [1, 2, 3, 4, 5, 6, 7, 8] (by norm_num) (by norm_num) (by norm_num [delta])
  refine ⟨?_, by simp, by decide⟩
  rw [calc_technical_indicators, hk]
  simp
